import Mathlib

/-!
Verification development for the ComfyUI-Sn0w-Scripts shared module `sn0w.py`.

The file shallowly embeds the parts of the module that the documented
properties talk about:

* `MessageHolder` — the frontend/backend message relay: a message store
  (a Python dict from id strings to string payloads), a stash, and a
  process-wide cancellation flag, with the `"__cancel__"` / `"__start__"`
  sentinel handling of `addMessage` and the exact-id / wildcard `"-1"`
  pop chain of `waitForMessage` (including Python truthiness of the
  popped value in `pop(sid, None) or pop("-1")`).
* `ConfigReader.get_setting` — default fallback on a missing or corrupt
  settings file.
* `Utility` — `levenshtein_distance` (the row-based dynamic program),
  `_check_image_dimensions` / `image_batch`, and `put_favourite_on_top`
  (modelled with explicit list state to capture the in-place
  `arr.remove(item)` mutation of the argument).

Python dicts are embedded as association lists with unique keys
(`dictGet` / `dictSet` / `dictRemove`); a blocking `waitForMessage` call
is embedded as its per-poll step function `waitStep`, whose `blocked`
outcome corresponds to one `time.sleep(period)` iteration of the busy
wait.  Python `int()` is modelled on ASCII strings (sign, digits,
single underscores between digits); `str.strip()` is modelled as
removing ASCII whitespace from both ends.
-/

/-! ## Python dict and string primitives -/

/-- Lookup in a Python dict embedded as an association list
(`messages[k]` / `k in messages`). -/
def dictGet (m : List (String × String)) (k : String) : Option String :=
  match m with
  | [] => none
  | (k1, v) :: rest => if k1 = k then some v else dictGet rest k

/-- Python dict assignment `m[k] = v`: replace the entry in place if the
key is present, otherwise append it. -/
def dictSet (m : List (String × String)) (k v : String) : List (String × String) :=
  match m with
  | [] => [(k, v)]
  | (k1, v1) :: rest => if k1 = k then (k, v) :: rest else (k1, v1) :: dictSet rest k v

/-- The removal effect of Python `m.pop(k, ...)`.  Dict keys are unique,
so filtering every entry with key `k` removes exactly the popped entry. -/
def dictRemove (m : List (String × String)) (k : String) : List (String × String) :=
  m.filter (fun p => p.1 ≠ k)

/-- Python truthiness of the result of `m.pop(k, None)`: `None` and the
empty string are falsy, every other string is truthy. -/
def pyTruthy : Option String → Bool
  | none => false
  | some s => s ≠ ""

/-- ASCII whitespace, modelling the characters `str.strip()` removes. -/
def isPySpace (c : Char) : Bool :=
  c = ' ' || c = '\t' || c = '\n' || c = '\r'

/-- Python `s.strip()` on the character list of an ASCII string. -/
def pyStrip (cs : List Char) : List Char :=
  ((cs.dropWhile isPySpace).reverse.dropWhile isPySpace).reverse

/-- Python `s.split(",")`: split at every comma, keeping empty pieces
(`"".split(",") == [""]`). -/
def splitComma : List Char → List (List Char)
  | [] => [[]]
  | ',' :: rest =>
      [] :: splitComma rest
  | c :: rest =>
      match splitComma rest with
      | [] => [[c]]
      | piece :: pieces => (c :: piece) :: pieces

/-- Digit-or-underscore tail of a Python integer literal: after the
leading digit, underscores may appear only singly and between digits. -/
def pyDigitsTail : List Char → Bool
  | [] => true
  | ['_'] => false
  | '_' :: c :: rest => c.isDigit && pyDigitsTail rest
  | c :: rest => c.isDigit && pyDigitsTail rest

/-- Whether a character list is a valid unsigned body for Python
`int()`: nonempty, starting with a digit, then `pyDigitsTail`. -/
def pyDigitsValid : List Char → Bool
  | [] => false
  | c :: rest => c.isDigit && pyDigitsTail rest

/-- Numeric value of a digit-and-underscore body (underscores skipped). -/
def pyDigitsVal (cs : List Char) : Nat :=
  cs.foldl (fun a c => if c = '_' then a else 10 * a + (c.toNat - 48)) 0

/-- Python `int(s)` on an ASCII string: strip whitespace, optional sign,
then a digit body with single underscores between digits; `none` models
the `ValueError`. -/
def pyInt (cs : List Char) : Option Int :=
  match pyStrip cs with
  | '+' :: rest => if pyDigitsValid rest then some (pyDigitsVal rest) else none
  | '-' :: rest => if pyDigitsValid rest then some (-(pyDigitsVal rest : Int)) else none
  | rest => if pyDigitsValid rest then some (pyDigitsVal rest) else none

/-- Sequence a list of parse results, failing at the first failure, as
the list comprehension `[int(x.strip()) for x in message.split(",")]`
does. -/
def seqParse : List (Option Int) → Option (List Int)
  | [] => some []
  | none :: _ => none
  | some n :: rest =>
      match seqParse rest with
      | none => none
      | some ns => some (n :: ns)

/-! ## MessageHolder -/

/-- The value `waitForMessage` returns: a single int or a list of ints,
depending on the `asList` flag. -/
inductive ParsedMessage
  | intVal (n : Int)
  | listVal (ns : List Int)
  deriving DecidableEq

/-- The parsing tail of `waitForMessage`: `try` the int / int-list
parse, and on `ValueError` log an error and fall back to `1` / `[1]`.
The boolean records whether the error branch (the log call) ran. -/
def parseMessage (v : String) (asList : Bool) : ParsedMessage × Bool :=
  if asList then
    match seqParse ((splitComma v.data).map (fun x => pyInt (pyStrip x))) with
    | some ns => (.listVal ns, false)
    | none => (.listVal [1], true)
  else
    match pyInt (pyStrip v.data) with
    | some n => (.intVal n, false)
    | none => (.intVal 1, true)

/-- The class-level state of `MessageHolder`: `stash`, `messages`, and
the `cancelled` flag. -/
structure HolderState where
  stash : List (String × String)
  messages : List (String × String)
  cancelled : Bool
  deriving DecidableEq

/-- The state at class definition time: empty dicts, flag clear. -/
def initialState : HolderState := ⟨[], [], false⟩

/-- `MessageHolder.addMessage(id, message)`: `"__cancel__"` clears the
store and sets the flag, `"__start__"` clears store and stash and
clears the flag, anything else is stored under the id. -/
def addMessage (st : HolderState) (id msg : String) : HolderState :=
  if msg = "__cancel__" then
    { st with messages := [], cancelled := true }
  else if msg = "__start__" then
    { stash := [], messages := [], cancelled := false }
  else
    { st with messages := dictSet st.messages id msg }

/-- Outcome of one poll iteration of `waitForMessage`. -/
inductive WaitOutcome
  | blocked
  | raisedCancelled
  | raisedKeyError
  | delivered (v : ParsedMessage) (errorLogged : Bool)
  deriving DecidableEq

/-- One poll iteration of `MessageHolder.waitForMessage(id)`.

* While neither the exact id nor the wildcard `"-1"` is present, the
  loop body runs: a set cancellation flag is consumed and `Cancelled`
  is raised (`raisedCancelled`), otherwise the call sleeps
  (`blocked`) and polls again.
* Once an entry is available, the flag is checked once more, then
  `messages.pop(sid, None) or messages.pop("-1")` runs: the exact
  entry is popped first; if it is missing or falsy (the empty string),
  the wildcard entry is popped too — raising `KeyError`
  (`raisedKeyError`) when there is none — and the parse tail
  (`parseMessage`) produces the returned value. -/
def waitStep (st : HolderState) (id : String) (asList : Bool) : WaitOutcome × HolderState :=
  if ((dictGet st.messages id).isNone && (dictGet st.messages "-1").isNone) then
    if st.cancelled then (.raisedCancelled, { st with cancelled := false })
    else (.blocked, st)
  else if st.cancelled then (.raisedCancelled, { st with cancelled := false })
  else
    let ex := dictGet st.messages id
    let m1 := dictRemove st.messages id
    if pyTruthy ex then
      match ex with
      | some v =>
          (.delivered (parseMessage v asList).1 (parseMessage v asList).2,
            { st with messages := m1 })
      | none => (.raisedKeyError, { st with messages := m1 })
    else
      match dictGet m1 "-1" with
      | some w =>
          (.delivered (parseMessage w asList).1 (parseMessage w asList).2,
            { st with messages := dictRemove m1 "-1" })
      | none => (.raisedKeyError, { st with messages := m1 })

/-! ## ConfigReader -/

/-- Outcome of the `open`/`json.load` pair in `get_setting`: the two
exceptions the source catches, or the parsed flat settings object.  The
value type is a parameter — the source stores arbitrary JSON values and
returns them untyped. -/
inductive FileReadResult (α : Type)
  | notFound
  | badJson
  | ok (settings : List (String × α))

/-- A console diagnostic printed by `print_sn0w`, classified by the
colour the source passes (yellow = warning, red = error). -/
inductive LogEvent
  | warning
  | logError
  deriving DecidableEq

/-- Lookup with default, as Python `settings.get(setting_id, default)`. -/
def settingsGet {α : Type} (m : List (String × α)) (k : String) (d : α) : α :=
  match m with
  | [] => d
  | (k1, v) :: rest => if k1 = k then v else settingsGet rest k d

/-- `ConfigReader.get_setting(setting_id, default)`.  `portable` is the
class attribute set at import time (`none` when neither candidate
settings file was found); `file` is the outcome of reading the resolved
path.  The result pairs the returned value with the diagnostics
printed. -/
def get_setting {α : Type} (portable : Option Bool) (file : FileReadResult α)
    (setting_id : String) (default : α) : α × List LogEvent :=
  match portable with
  | none => (default, [.warning])
  | some _ =>
    match file with
    | .notFound => (default, [.warning])
    | .badJson => (default, [.logError])
    | .ok settings => (settingsGet settings setting_id default, [])

/-! ## Utility: image batching -/

/-- An image tensor, embedded as its shape (`tensor.shape`). -/
def PyTensor := List Nat

/-- Python `repr` of a string (quotes only; the names involved contain
no characters needing escapes). -/
def pyStrRepr (s : String) : String := "'" ++ s ++ "'"

/-- Python `repr` of a list of strings, as an f-string interpolates it. -/
def pyListRepr (xs : List String) : String :=
  "[" ++ String.intercalate ", " (xs.map pyStrRepr) ++ "]"

/-- `Utility._check_image_dimensions(tensors, names)`: compare every
shape beyond the batch dimension against the first tensor's, and raise
`ValueError` naming the mismatching tensors if there are any.  `some
msg` models the raise.  (The source indexes `tensors[0]`; `image_batch`
only calls it with a nonempty list.) -/
def check_image_dimensions (tensors : List (List Nat)) (names : List String) : Option String :=
  match tensors with
  | [] => none
  | t0 :: _ =>
    let ref := t0.drop 1
    let mismatched := ((names.zip tensors).filter (fun p => ¬ p.2.drop 1 = ref)).map (fun p => p.1)
    if mismatched.isEmpty then none
    else some ("Input image dimensions do not match for images: " ++ pyListRepr mismatched)

/-- `torch.cat(ts, dim=0)` on the shape level: batch dimensions add up,
the remaining dimensions are those of the first tensor. -/
def torchCat (ts : List (List Nat)) : List Nat :=
  match ts with
  | [] => []
  | t0 :: _ => (ts.map (fun t => t.headD 0)).sum :: t0.drop 1

/-- `Utility.image_batch(**kwargs)`: keep the non-`None` keyword images
in order, fail if none remain, check dimensions, and concatenate.
`Except.error` models the raised `ValueError`'s message. -/
def image_batch (kwargs : List (String × Option (List Nat))) : Except String (List Nat) :=
  let batched := kwargs.filterMap (fun p => p.2)
  let names := (kwargs.filter (fun p => p.2.isSome)).map (fun p => p.1)
  if batched.isEmpty then .error "At least one input image must be provided."
  else
    match check_image_dimensions batched names with
    | some msg => .error msg
    | none => .ok (torchCat batched)

/-! ## Utility: favourites reordering -/

/-- Python `str.lower()` (ASCII model). -/
def pyLower (s : String) : String := ⟨s.data.map Char.toLower⟩

/-- Whether `needle` occurs at the head of `hay` (the leading segment
comparison behind Python substring containment). -/
def leadEq : List Char → List Char → Bool
  | [], _ => true
  | _ :: _, [] => false
  | a :: as, b :: bs => a = b && leadEq as bs

/-- Python `needle in hay` for strings: `needle` occurs as a contiguous
segment of `hay` (the empty string is in every string). -/
def hasSeg (needle : List Char) : List Char → Bool
  | [] => leadEq needle []
  | c :: rest => leadEq needle (c :: rest) || hasSeg needle rest

/-- The match test of `put_favourite_on_top`:
`any(favourite.lower() in item.lower() for favourite in favourites)`. -/
def favMatch (favourites : List String) (item : String) : Bool :=
  favourites.any (fun f => hasSeg (pyLower f).data (pyLower item).data)

/-- Python `arr.remove(v)`: drop the first occurrence of `v`.  (The
source never calls it on a list without `v`, where Python would raise.) -/
def pyRemove : List String → String → List String
  | [], _ => []
  | x :: xs, v => if x = v then xs else x :: pyRemove xs v

/-- The `for item in arr_copy` loop of `put_favourite_on_top`: walk the
copy, append matches to `prioritized`, and remove them from the live
list `arr` (the caller's argument).  Returns (prioritized, arr). -/
def favLoop (favourites : List String) :
    List String → List String → List String → List String × List String
  | [], prioritized, arr => (prioritized, arr)
  | item :: rest, prioritized, arr =>
    if favMatch favourites item then
      favLoop favourites rest (prioritized ++ [item]) (pyRemove arr item)
    else
      favLoop favourites rest prioritized arr

/-- `Utility.put_favourite_on_top(setting, arr)` on a list argument.
`favourites` is what `ConfigReader.get_setting(setting, [])` returned
(`none` models a stored JSON `null`, which the source checks for with
`is None`).  The result pairs the returned list with the final contents
of the caller's `arr` — the source's `arr.remove(item)` mutates the
argument in place. -/
def put_favourite_on_top (favourites : Option (List String)) (arr : List String) :
    List String × List String :=
  match favourites with
  | none => (arr, arr)
  | some favs =>
    let res := favLoop favs arr [] arr
    (res.1 ++ res.2, res.2)

/-! ## Utility: levenshtein_distance -/

/-- The cell computation of the inner `for j, c2 in enumerate(s2)` loop:
walk `s2` and the previous row in lockstep (`prev` holds
`previous_row[j], previous_row[j+1], ...`), carrying the row value just
appended (`previous = current_row[j]`).  Each new cell is
`min(insertions, deletions, substitutions)`. -/
def innerCells (c1 : Char) : List Char → List Nat → Nat → List Nat
  | c2 :: rest2, pj :: pj1 :: prest, dj =>
      let d := min (pj1 + 1) (min (dj + 1) (pj + (if c1 = c2 then 0 else 1)))
      d :: innerCells c1 rest2 (pj1 :: prest) d
  | _, _, _ => []

/-- The outer `for i, c1 in enumerate(s1)` loop: each iteration seeds
`current_row = [i + 1]` and extends it with `innerCells`, which becomes
the next `previous_row`. -/
def outerRows (s2 : List Char) : List Char → Nat → List Nat → List Nat
  | [], _, prev => prev
  | c1 :: rest1, i, prev =>
      outerRows s2 rest1 (i + 1) ((i + 1) :: innerCells c1 s2 prev (i + 1))

/-- The body of `Utility.levenshtein_distance` after the argument-order
guard: the `len(s2) == 0` base case, else run the row dynamic program
from `previous_row = range(len(s2) + 1)` and return `previous_row[-1]`. -/
def levBody (s1 s2 : List Char) : Nat :=
  if s2.length = 0 then s1.length
  else (outerRows s2 s1 0 (List.range (s2.length + 1))).getLastD 0

/-- `Utility.levenshtein_distance(s1, s2)`.  The source's
`if len(s1) < len(s2): return levenshtein_distance(s2, s1)` recurses
exactly once (after the swap the guard is false), so it is unfolded
here into a single conditional swap in front of the body. -/
def levenshtein_distance (s1 s2 : List Char) : Nat :=
  if s1.length < s2.length then levBody s2 s1 else levBody s1 s2

/-- Reference recursion for edit distance, consuming both words from
the front, with the same cell combination
`min(insert + 1, delete + 1, substitute + cost)` the DP uses. -/
def lev (a b : List Char) : Nat :=
  match a, b with
  | [], ys => ys.length
  | _ :: xs, [] => xs.length + 1
  | x :: xs, y :: ys =>
      min (lev xs (y :: ys) + 1)
        (min (lev (x :: xs) ys + 1) (lev xs ys + (if x = y then 0 else 1)))
termination_by (a.length, b.length)

/-- Edit distance by last-character recursion: `lev` on the reversed
words.  The row dynamic program grows prefixes at their right end, so
its cells are `lev2` values. -/
def lev2 (a b : List Char) : Nat := lev a.reverse b.reverse

/-- Ideal tail of a DP row for the left word `B`: the cells for the
right-word prefixes `t ++ [c2]`, `t ++ [c2, c3]`, … as the remaining
part of the row word is consumed. -/
def specTail (B : List Char) : List Char → List Char → List Nat
  | _, [] => []
  | t, c2 :: rest => lev2 B (t ++ [c2]) :: specTail B (t ++ [c2]) rest

/-- Ideal DP row for left word `B`: cell `j` holds the distance from
`B` to the length-`j` extension of the consumed prefix `t`. -/
def specRow (B t rest : List Char) : List Nat := lev2 B t :: specTail B t rest

/-! ## Association-list (dict) lemmas -/

theorem dictGet_dictSet_self (m : List (String × String)) (k v : String) :
    dictGet (dictSet m k v) k = some v := by
  induction m with
  | nil => simp [dictSet, dictGet]
  | cons p rest ih =>
    obtain ⟨k1, v1⟩ := p
    by_cases h : k1 = k <;> simp [dictSet, dictGet, h, ih]

theorem dictGet_dictSet_ne (m : List (String × String)) (k v k2 : String) (h : ¬ k = k2) :
    dictGet (dictSet m k v) k2 = dictGet m k2 := by
  induction m with
  | nil => simp [dictSet, dictGet, h]
  | cons p rest ih =>
    obtain ⟨k1, v1⟩ := p
    by_cases h1 : k1 = k
    · subst h1
      simp [dictSet, dictGet, h]
    · simp [dictSet, dictGet, h1, ih]

theorem dictGet_dictRemove_self (m : List (String × String)) (k : String) :
    dictGet (dictRemove m k) k = none := by
  induction m with
  | nil => simp [dictRemove, dictGet]
  | cons p rest ih =>
    obtain ⟨k1, v1⟩ := p
    by_cases h : k1 = k <;> simp [dictRemove, List.filter, h, dictGet] <;>
      simpa [dictRemove] using ih

theorem dictGet_dictRemove_ne (m : List (String × String)) (k k2 : String) (h : ¬ k = k2) :
    dictGet (dictRemove m k) k2 = dictGet m k2 := by
  induction m with
  | nil => simp [dictRemove, dictGet]
  | cons p rest ih =>
    obtain ⟨k1, v1⟩ := p
    by_cases h1 : k1 = k
    · subst h1
      simp [dictRemove, List.filter, dictGet, h]
      simpa [dictRemove] using ih
    · simp [dictRemove, List.filter, h1, dictGet]
      by_cases h2 : k1 = k2
      · simp [h2]
      · simp [h2]
        simpa [dictRemove] using ih

theorem dictRemove_of_get_none (m : List (String × String)) (k : String)
    (h : dictGet m k = none) : dictRemove m k = m := by
  induction m with
  | nil => simp [dictRemove]
  | cons p rest ih =>
    obtain ⟨k1, v1⟩ := p
    by_cases h1 : k1 = k
    · simp [dictGet, h1] at h
    · simp [dictGet, h1] at h
      simp [dictRemove, List.filter, h1]
      simpa [dictRemove] using ih h

/-! ## MessageHolder claims -/

/-- C2: `addMessage(k, "__cancel__")` clears the message store and sets
the cancellation flag; the next `waitForMessage` poll (for any id)
raises the distinct `Cancelled` condition and clears the flag, and a
subsequent poll behaves normally (it blocks on the emptied store
instead of raising again) — so exactly one wait observes the
cancellation. -/
theorem C2_cancel_spec (st : HolderState) (k sid sid2 : String) (aL aL2 : Bool) :
    (addMessage st k "__cancel__").messages = [] ∧
    (addMessage st k "__cancel__").cancelled = true ∧
    waitStep (addMessage st k "__cancel__") sid aL
      = (.raisedCancelled, ⟨st.stash, [], false⟩) ∧
    waitStep ⟨st.stash, [], false⟩ sid2 aL2 = (.blocked, ⟨st.stash, [], false⟩) := by
  refine ⟨by simp [addMessage], by simp [addMessage], ?_, ?_⟩
  · simp [addMessage, waitStep, dictGet]
  · simp [waitStep, dictGet]

/-- C4: `addMessage(k, "__start__")` resets the whole holder: messages
and stash cleared, cancellation flag cleared; a wait still pending
after the reset blocks on its next poll (the pre-reset entries are
gone), so it can never return a value deposited before the reset. -/
theorem C4_start_spec (st : HolderState) (k sid : String) (aL : Bool) :
    addMessage st k "__start__" = ⟨[], [], false⟩ ∧
    waitStep ⟨[], [], false⟩ sid aL = (.blocked, ⟨[], [], false⟩) := by
  refine ⟨by simp [addMessage], by simp [waitStep, dictGet]⟩

/-- C5: the parse-or-default policy of `waitForMessage`: with
`asList=True`, the stored value `"1, 2,3"` yields `[1,2,3]` and `"abc"`
yields the fallback `[1]` with an error logged; with `asList=False`,
`"42"` yields `42` and `"x"` yields `1` with an error logged.  In every
case the outcome is `delivered` — the call neither raises nor keeps
blocking on a parse failure. -/
theorem C5_parse_policy :
    waitStep ⟨[], [("3", "1, 2,3")], false⟩ "3" true
      = (.delivered (.listVal [1, 2, 3]) false, ⟨[], [], false⟩) ∧
    waitStep ⟨[], [("3", "abc")], false⟩ "3" true
      = (.delivered (.listVal [1]) true, ⟨[], [], false⟩) ∧
    waitStep ⟨[], [("3", "42")], false⟩ "3" false
      = (.delivered (.intVal 42) false, ⟨[], [], false⟩) ∧
    waitStep ⟨[], [("3", "x")], false⟩ "3" false
      = (.delivered (.intVal 1) true, ⟨[], [], false⟩) := by
  refine ⟨by decide, by decide, by decide, by decide⟩

/-- C1 (amended): for a non-empty, non-sentinel value `v`, starting
from a holder with no pending cancellation and no wildcard entry,
`addMessage(k, v)` followed by `waitForMessage(k)` delivers the parsed
value and consumes the entry, and a second immediate poll for `k`
blocks.  (The non-emptiness of `v` is forced by the falsy-pop chain;
see the counterexample.) -/
theorem C1_deliver_once (st : HolderState) (k v : String) (aL : Bool)
    (hc : st.cancelled = false) (hw : dictGet st.messages "-1" = none)
    (h1 : ¬ v = "__cancel__") (h2 : ¬ v = "__start__") (h3 : ¬ v = "") :
    waitStep (addMessage st k v) k aL
      = (.delivered (parseMessage v aL).1 (parseMessage v aL).2,
          ⟨st.stash, dictRemove (dictSet st.messages k v) k, false⟩) ∧
    waitStep ⟨st.stash, dictRemove (dictSet st.messages k v) k, false⟩ k aL
      = (.blocked, ⟨st.stash, dictRemove (dictSet st.messages k v) k, false⟩) := by
  have hadd : addMessage st k v = ⟨st.stash, dictSet st.messages k v, st.cancelled⟩ := by
    simp [addMessage, h1, h2]
  have hget : dictGet (dictSet st.messages k v) k = some v := dictGet_dictSet_self st.messages k v
  have hrem : dictGet (dictRemove (dictSet st.messages k v) k) k = none :=
    dictGet_dictRemove_self (dictSet st.messages k v) k
  have hrem1 : dictGet (dictRemove (dictSet st.messages k v) k) "-1" = none := by
    by_cases hk : k = "-1"
    · subst hk
      exact dictGet_dictRemove_self (dictSet st.messages "-1" v) "-1"
    · rw [dictGet_dictRemove_ne _ _ _ hk, dictGet_dictSet_ne _ _ _ _ hk, hw]
  constructor
  · rw [hadd]
    simp [waitStep, hget, hc, pyTruthy, h3]
  · simp [waitStep, hrem, hrem1]

/-- C1 counterexample: the claim quantifies over every non-sentinel
string `v`, but for `v = ""` the popped exact entry is falsy, so
`pop(sid, None) or pop("-1")` goes on to pop the absent wildcard and
`waitForMessage` raises an uncaught `KeyError` instead of returning
the value — the wait does not return `v` at all. -/
theorem C1_empty_value_ctrex :
    waitStep (addMessage initialState "5" "") "5" false
      = (.raisedKeyError, ⟨[], [], false⟩) := by decide

/-- C1 witness: concrete instance of `C1_deliver_once` at `k = "5"`,
`v = "7"` from the initial state. -/
theorem C1_deliver_once_witness :
    waitStep (addMessage initialState "5" "7") "5" false
      = (.delivered (.intVal 7) false, ⟨[], [], false⟩) ∧
    waitStep ⟨[], [], false⟩ "5" false = (.blocked, ⟨[], [], false⟩) :=
  C1_deliver_once initialState "5" "7" false rfl rfl
    (by decide) (by decide) (by decide)

/-- C3 (amended): an exact-id entry with a truthy (non-empty) value is
popped and returned in preference to the wildcard, which stays in the
store; the wildcard entry is consumed when no exact-id entry exists.
(When the exact entry exists but is the empty string, the source's
falsy-pop chain consumes both and returns the wildcard value; see the
counterexample.) -/
theorem C3_exact_over_wildcard (st : HolderState) (sid v : String) (aL : Bool)
    (hc : st.cancelled = false) :
    (dictGet st.messages sid = some v → ¬ v = "" →
      waitStep st sid aL
        = (.delivered (parseMessage v aL).1 (parseMessage v aL).2,
            ⟨st.stash, dictRemove st.messages sid, false⟩)) ∧
    (dictGet st.messages sid = none → ∀ w, dictGet st.messages "-1" = some w →
      waitStep st sid aL
        = (.delivered (parseMessage w aL).1 (parseMessage w aL).2,
            ⟨st.stash, dictRemove st.messages "-1", false⟩)) := by
  constructor
  · intro he hv
    simp [waitStep, he, hc, pyTruthy, hv]
  · intro he w hw
    have hid : dictRemove st.messages sid = st.messages :=
      dictRemove_of_get_none st.messages sid he
    simp [waitStep, he, hc, pyTruthy, hid, hw]

/-- C3 counterexample: with an exact entry holding the empty string and
a wildcard entry present, the wait consumes both entries and returns
the wildcard's value — so the wildcard is consumed even though an
exact-id entry existed, and the exact entry's value is not returned. -/
theorem C3_falsy_exact_ctrex :
    waitStep ⟨[], [("5", ""), ("-1", "7")], false⟩ "5" false
      = (.delivered (.intVal 7) false, ⟨[], [], false⟩) := by decide

/-- C3 witness: concrete instances of both branches of
`C3_exact_over_wildcard`: exact entry preferred with the wildcard left
in place, and wildcard consumed when no exact entry exists. -/
theorem C3_exact_over_wildcard_witness :
    waitStep ⟨[], [("5", "7"), ("-1", "9")], false⟩ "5" false
      = (.delivered (.intVal 7) false, ⟨[], [("-1", "9")], false⟩) ∧
    waitStep ⟨[], [("-1", "9")], false⟩ "5" false
      = (.delivered (.intVal 9) false, ⟨[], [], false⟩) := by
  constructor
  · exact (C3_exact_over_wildcard ⟨[], [("5", "7"), ("-1", "9")], false⟩ "5" "7" false rfl).1
      (by decide) (by decide)
  · exact (C3_exact_over_wildcard ⟨[], [("-1", "9")], false⟩ "5" "9" false rfl).2
      (by decide) "9" (by decide)

/-- C9: when the entry under the waiter's exact id is the empty string
(falsy), the pop chain pops the exact entry and then also pops the
wildcard: with no wildcard entry the call raises an uncaught
`KeyError`; with a wildcard entry both entries are consumed and the
wildcard's parsed value is returned instead of the exact one. -/
theorem C9_falsy_pop_chain (st : HolderState) (sid : String) (aL : Bool)
    (hc : st.cancelled = false) (he : dictGet st.messages sid = some "") :
    (dictGet (dictRemove st.messages sid) "-1" = none →
      waitStep st sid aL = (.raisedKeyError, ⟨st.stash, dictRemove st.messages sid, false⟩)) ∧
    (∀ w, dictGet (dictRemove st.messages sid) "-1" = some w →
      waitStep st sid aL
        = (.delivered (parseMessage w aL).1 (parseMessage w aL).2,
            ⟨st.stash, dictRemove (dictRemove st.messages sid) "-1", false⟩)) := by
  constructor
  · intro hw
    simp [waitStep, he, hc, pyTruthy, hw]
  · intro w hw
    simp [waitStep, he, hc, pyTruthy, hw]

/-- C9 witness: concrete instances of both branches of
`C9_falsy_pop_chain`: `KeyError` without a wildcard entry, and
both-consumed delivery of the wildcard value with one. -/
theorem C9_falsy_pop_chain_witness :
    waitStep ⟨[], [("5", "")], false⟩ "5" false = (.raisedKeyError, ⟨[], [], false⟩) ∧
    waitStep ⟨[], [("5", ""), ("-1", "7")], false⟩ "5" true
      = (.delivered (.listVal [7]) false, ⟨[], [], false⟩)
      := by
  constructor
  · exact (C9_falsy_pop_chain ⟨[], [("5", "")], false⟩ "5" false rfl (by decide)).1 (by decide)
  · exact (C9_falsy_pop_chain ⟨[], [("5", ""), ("-1", "7")], false⟩ "5" true rfl (by decide)).2
      "7" (by decide)

/-! ## ConfigReader claim -/

/-- C6: when the settings file is missing (no candidate path found at
module load, or the resolved path raises `FileNotFoundError`) or its
JSON is malformed (`json.JSONDecodeError`), `get_setting` returns the
caller-supplied default and prints exactly one warning/error
diagnostic.  The source catches exactly these two exceptions and falls
through to `return default`, so the failure is never propagated — the
embedding is accordingly a total function. -/
theorem C6_get_setting_default {α : Type} (portable : Option Bool)
    (file : FileReadResult α) (sid : String) (default : α)
    (h : portable = none ∨ file = .notFound ∨ file = .badJson) :
    (get_setting portable file sid default).1 = default ∧
    (get_setting portable file sid default).2.length = 1 := by
  rcases h with h | h | h
  · subst h
    exact ⟨rfl, rfl⟩
  · subst h
    cases portable <;> exact ⟨rfl, rfl⟩
  · subst h
    cases portable <;> exact ⟨rfl, rfl⟩

/-- C6 witness: the missing-file scenario
`get_setting("x", "default") = "default"` with one diagnostic. -/
theorem C6_get_setting_default_witness :
    (get_setting (some false) (FileReadResult.notFound : FileReadResult String)
        "x" "default").1 = "default" ∧
    (get_setting (some false) (FileReadResult.notFound : FileReadResult String)
        "x" "default").2.length = 1 :=
  C6_get_setting_default (some false) FileReadResult.notFound "x" "default"
    (Or.inr (Or.inl rfl))

/-! ## Utility claims: image batching -/

/-- C7 (amended): two images of shapes (1,3,64,64) and (1,3,64,32)
make `image_batch` raise a descriptive `ValueError`, but the message
names only the mismatching inputs — those whose non-batch dimensions
differ from the first input's — so here it names the second input
only, not both. -/
theorem C7_mismatch_error :
    image_batch [("image1", some [1, 3, 64, 64]), ("image2", some [1, 3, 64, 32])]
      = .error "Input image dimensions do not match for images: ['image2']" := by rfl

/-- C7 counterexample: the raised message is exactly
`"Input image dimensions do not match for images: ['image2']"`; it
contains the name of the second input but not that of the first, so
the error does not name both offending inputs as claimed. -/
theorem C7_names_one_input_ctrex :
    image_batch [("image1", some [1, 3, 64, 64]), ("image2", some [1, 3, 64, 32])]
      = .error "Input image dimensions do not match for images: ['image2']" ∧
    hasSeg "image1".data "Input image dimensions do not match for images: ['image2']".data
      = false ∧
    hasSeg "image2".data "Input image dimensions do not match for images: ['image2']".data
      = true := by
  refine ⟨by rfl, by decide, by decide⟩

/-! ## Utility claims: favourites reordering -/

theorem pyRemove_append_of_not_mem (pre : List String) (item : String) (post : List String)
    (h : item ∉ pre) : pyRemove (pre ++ item :: post) item = pre ++ post := by
  induction pre with
  | nil => simp [pyRemove]
  | cons x xs ih =>
    have hx : ¬ x = item := by
      intro hx
      exact h (by simp [hx])
    have hxs : item ∉ xs := by
      intro hmem
      exact h (by simp [hmem])
    simp [pyRemove, hx, ih hxs]

/-- Invariant of the `for item in arr_copy` loop: walking the remaining
copy with the live list equal to the unmatched items seen so far
followed by the remaining items, the loop ends with the matches
appended to `prioritized` and the live list holding exactly the
non-matching items. -/
theorem favLoop_spec (favs : List String) :
    ∀ (rest pri unmatched : List String),
      (∀ u ∈ unmatched, favMatch favs u = false) →
      favLoop favs rest pri (unmatched ++ rest)
        = (pri ++ rest.filter (fun i => favMatch favs i),
           unmatched ++ rest.filter (fun i => !(favMatch favs i))) := by
  intro rest
  induction rest with
  | nil => intro pri unmatched h; simp [favLoop]
  | cons item rest ih =>
    intro pri unmatched h
    by_cases hm : favMatch favs item
    · have hnm : item ∉ unmatched := by
        intro hmem
        rw [h item hmem] at hm
        cases hm
      have hrm : pyRemove (unmatched ++ item :: rest) item = unmatched ++ rest :=
        pyRemove_append_of_not_mem unmatched item rest hnm
      rw [favLoop, if_pos hm, hrm, ih (pri ++ [item]) unmatched h]
      simp [hm, List.filter_cons]
    · have h2 : ∀ u ∈ unmatched ++ [item], favMatch favs u = false := by
        intro u hu
        rcases List.mem_append.mp hu with hu | hu
        · exact h u hu
        · simp at hu
          subst hu
          simpa using hm
      have harr : unmatched ++ item :: rest = (unmatched ++ [item]) ++ rest := by simp
      rw [favLoop, if_neg hm, harr, ih pri (unmatched ++ [item]) h2]
      simp [hm, List.filter_cons]

/-- C8 (amended): `put_favourite_on_top` computes its result purely
from its inputs and the favourites setting — the returned list is the
favourite-matching items followed by the rest, in order — but it is
not pure in its list argument: the source's `arr.remove(item)` mutates
the caller's list, which ends up holding only the non-matching items
(so it is left unmodified only when nothing matches or the setting is
`None`). -/
theorem C8_favourites (favs : List String) (arr : List String) :
    put_favourite_on_top (some favs) arr
      = (arr.filter (fun i => favMatch favs i) ++ arr.filter (fun i => !(favMatch favs i)),
         arr.filter (fun i => !(favMatch favs i))) ∧
    put_favourite_on_top none arr = (arr, arr) := by
  constructor
  · have h := favLoop_spec favs arr [] [] (by intro u hu; cases hu)
    simp only [List.nil_append] at h
    simp [put_favourite_on_top, h]
  · rfl

/-- C8 counterexample: with favourites `["a"]` and argument
`["apple", "b"]`, the call returns the reordered list but the caller's
list argument has been mutated to `["b"]` — the Utility function is
not pure in its argument. -/
theorem C8_mutates_argument_ctrex :
    put_favourite_on_top (some ["a"]) ["apple", "b"] = (["apple", "b"], ["b"]) ∧
    ¬ (["b"] = ["apple", "b"]) := by
  refine ⟨by decide, by decide⟩

/-! ## Levenshtein: reference recursion lemmas -/

theorem lev_nil_left (b : List Char) : lev [] b = b.length := by
  cases b <;> simp [lev]

theorem lev_nil_right (a : List Char) : lev a [] = a.length := by
  cases a <;> simp [lev]

theorem lev_cons_cons (x y : Char) (xs ys : List Char) :
    lev (x :: xs) (y :: ys)
      = min (lev xs (y :: ys) + 1)
          (min (lev (x :: xs) ys + 1) (lev xs ys + (if x = y then 0 else 1))) := by
  rw [lev]

theorem lev_self (a : List Char) : lev a a = 0 := by
  induction a with
  | nil => simp [lev_nil_left]
  | cons x xs ih =>
    rw [lev_cons_cons]
    simp [ih]

theorem lev_comm (a : List Char) : ∀ (b : List Char), lev a b = lev b a := by
  induction a with
  | nil =>
    intro b
    rw [lev_nil_left, lev_nil_right]
  | cons x xs ihx =>
    intro b
    induction b with
    | nil => rw [lev_nil_left, lev_nil_right]
    | cons y ys ihy =>
      rw [lev_cons_cons, lev_cons_cons, ihx (y :: ys), ihx ys, ihy]
      by_cases h : x = y
      · subst h
        simp
        omega
      · have h2 : ¬ y = x := fun hyx => h hyx.symm
        simp only [if_neg h, if_neg h2]
        omega

theorem lev2_nil_left (b : List Char) : lev2 [] b = b.length := by
  simp [lev2, lev_nil_left]

theorem lev2_nil_right (a : List Char) : lev2 a [] = a.length := by
  simp [lev2, lev_nil_right]

theorem lev2_comm (a b : List Char) : lev2 a b = lev2 b a := by
  simp [lev2, lev_comm a.reverse b.reverse]

theorem lev2_self (a : List Char) : lev2 a a = 0 := lev_self a.reverse

theorem lev2_concat_concat (A B : List Char) (x y : Char) :
    lev2 (A ++ [x]) (B ++ [y])
      = min (lev2 A (B ++ [y]) + 1)
          (min (lev2 (A ++ [x]) B + 1) (lev2 A B + (if x = y then 0 else 1))) := by
  simp only [lev2, List.reverse_append, List.reverse_cons, List.reverse_nil,
    List.nil_append, List.singleton_append]
  exact lev_cons_cons x y A.reverse B.reverse

/-! ## Levenshtein: the row dynamic program computes `lev2` -/

theorem specRow_cons (B t : List Char) (c2 : Char) (rest : List Char) :
    specRow B t (c2 :: rest) = lev2 B t :: specRow B (t ++ [c2]) rest := by
  simp [specRow, specTail]

theorem innerCells_spec (A : List Char) (c1 : Char) :
    ∀ (rest2 t : List Char) (d : Nat), d = lev2 (A ++ [c1]) t →
      innerCells c1 rest2 (specRow A t rest2) d = specTail (A ++ [c1]) t rest2 := by
  intro rest2
  induction rest2 with
  | nil =>
    intro t d hd
    simp [specRow, specTail, innerCells]
  | cons c2 rest ih =>
    intro t d hd
    have hrow : specRow A t (c2 :: rest)
        = lev2 A t :: lev2 A (t ++ [c2]) :: specTail A (t ++ [c2]) rest := by
      rw [specRow_cons]
      rfl
    have hcell : min (lev2 A (t ++ [c2]) + 1)
        (min (d + 1) (lev2 A t + (if c1 = c2 then 0 else 1)))
        = lev2 (A ++ [c1]) (t ++ [c2]) := by
      rw [hd, lev2_concat_concat]
    rw [hrow]
    simp only [innerCells]
    rw [specTail, hcell]
    congr 1
    exact ih (t ++ [c2]) _ rfl

theorem outerRows_spec (s2 : List Char) :
    ∀ (rest1 p : List Char),
      outerRows s2 rest1 p.length (specRow p [] s2) = specRow (p ++ rest1) [] s2 := by
  intro rest1
  induction rest1 with
  | nil => intro p; simp [outerRows]
  | cons c1 rest ih =>
    intro p
    have hseed : p.length + 1 = lev2 (p ++ [c1]) [] := by
      rw [lev2_nil_right]
      simp
    have hcells : innerCells c1 s2 (specRow p [] s2) (p.length + 1)
        = specTail (p ++ [c1]) [] s2 :=
      innerCells_spec p c1 s2 [] (p.length + 1) hseed
    have hrow : (p.length + 1) :: innerCells c1 s2 (specRow p [] s2) (p.length + 1)
        = specRow (p ++ [c1]) [] s2 := by
      rw [hcells, hseed]
      rfl
    rw [outerRows, hrow]
    have hlen : p.length + 1 = (p ++ [c1]).length := by simp
    rw [hlen, ih (p ++ [c1])]
    simp

theorem specRow_nil_word :
    ∀ (rest t : List Char),
      specRow [] t rest = (List.range (rest.length + 1)).map (fun j => t.length + j) := by
  intro rest
  induction rest with
  | nil =>
    intro t
    simp [specRow, specTail, lev2_nil_left, List.range_succ]
  | cons c2 rest ih =>
    intro t
    have hfun : ((fun j => t.length + j) ∘ Nat.succ) = (fun j => (t ++ [c2]).length + j) := by
      funext j
      simp only [Function.comp_apply, List.length_append, List.length_cons, List.length_nil]
      omega
    have hrhs : (List.range ((c2 :: rest).length + 1)).map (fun j => t.length + j)
        = t.length :: (List.range (rest.length + 1)).map (fun j => (t ++ [c2]).length + j) := by
      rw [List.length_cons, List.range_succ_eq_map, List.map_cons, List.map_map, hfun]
      simp
    rw [specRow_cons, ih (t ++ [c2]), lev2_nil_left, hrhs]

theorem specTail_getLastD (B : List Char) :
    ∀ (rest t : List Char),
      (specTail B t rest).getLastD (lev2 B t) = lev2 B (t ++ rest) := by
  intro rest
  induction rest with
  | nil => intro t; simp [specTail]
  | cons c2 rest ih =>
    intro t
    rw [specTail, List.getLastD_cons, ih (t ++ [c2])]
    simp

theorem specRow_getLastD (B t rest : List Char) (d : Nat) :
    (specRow B t rest).getLastD d = lev2 B (t ++ rest) := by
  rw [specRow, List.getLastD_cons]
  exact specTail_getLastD B rest t

theorem levBody_eq (s1 s2 : List Char) : levBody s1 s2 = lev2 s1 s2 := by
  unfold levBody
  by_cases h : s2.length = 0
  · have h2 : s2 = [] := List.length_eq_zero.mp h
    subst h2
    rw [lev2_nil_right]
    simp
  · rw [if_neg h]
    have hinit : List.range (s2.length + 1) = specRow [] [] s2 := by
      rw [specRow_nil_word s2 []]
      simp
    rw [hinit]
    have houter := outerRows_spec s2 s1 []
    simp only [List.length_nil, List.nil_append] at houter
    rw [houter]
    exact specRow_getLastD s1 [] s2 0

theorem levenshtein_eq_lev2 (s1 s2 : List Char) :
    levenshtein_distance s1 s2 = lev2 s1 s2 := by
  unfold levenshtein_distance
  by_cases h : s1.length < s2.length
  · rw [if_pos h, levBody_eq, lev2_comm]
  · rw [if_neg h, levBody_eq]

/-- C10: `Utility.levenshtein_distance` is metric-like: symmetric in
its two arguments, zero on the diagonal, and equal to the first
string's length when the second string is empty. -/
theorem C10_levenshtein_metric (s1 s2 : List Char) :
    levenshtein_distance s1 s2 = levenshtein_distance s2 s1 ∧
    levenshtein_distance s1 s1 = 0 ∧
    levenshtein_distance s1 [] = s1.length := by
  refine ⟨?_, ?_, ?_⟩
  · rw [levenshtein_eq_lev2, levenshtein_eq_lev2, lev2_comm]
  · rw [levenshtein_eq_lev2, lev2_self]
  · rw [levenshtein_eq_lev2, lev2_nil_right]
